import Mathlib

set_option maxHeartbeats 1000000

/- Formal model of the PaperlessFAX web server security core
   (web/server/index.mjs): the session codec, credential resolution,
   the authorization gates, session-secret key derivation, and the
   SSE change-event bus.  JavaScript strings are modelled as lists of
   characters, byte buffers as lists of naturals below 256, and the
   runtime primitives that are not part of the repository (WebCrypto
   AES-GCM, SHA-256, JSON.stringify/JSON.parse, UTF-8 transcoding)
   as fields of an explicit JsRuntime record, with their documented
   contracts taken as hypotheses of the theorems that need them. -/

abbrev Str := List Char
abbrev Bytes := List Nat

def strChars (s : String) : Str := s.toList

/-- JavaScript whitespace: the character class trimmed by
String.prototype.trim (WhiteSpace together with LineTerminator). -/
def isJsWs (c : Char) : Bool :=
  c == ' ' || c == '\t' || c == '\n' || c == '\r' || c == '\x0b' || c == '\x0c' ||
  c == '\u00a0' || c == '\ufeff' || c == '\u1680' ||
  (decide (0x2000 ≤ c.toNat) && decide (c.toNat ≤ 0x200a)) ||
  c == '\u2028' || c == '\u2029' || c == '\u202f' || c == '\u205f' || c == '\u3000'

/-- JavaScript line terminators (the characters an unflagged regex dot
refuses to match). -/
def isLineTerm (c : Char) : Bool :=
  c == '\n' || c == '\r' || c == '\u2028' || c == '\u2029'

/-- Model of String.prototype.trim. -/
def jsTrim (s : Str) : Str :=
  ((s.dropWhile isJsWs).reverse.dropWhile isJsWs).reverse

def jsTrimStr (s : String) : String := String.mk (jsTrim s.toList)

def jsToLowerStr (s : String) : String := String.mk (s.toList.map Char.toLower)

/-- Model of String.prototype.split with a single-character separator. -/
def splitOnChar (sep : Char) : Str → List Str
  | [] => [[]]
  | c :: rest =>
    match splitOnChar sep rest with
    | [] => [[]]
    | h :: t => if c = sep then [] :: h :: t else (c :: h) :: t

theorem splitOnChar_ne_nil (sep : Char) (s : Str) : splitOnChar sep s ≠ [] := by
  cases s with
  | nil => simp [splitOnChar]
  | cons c rest =>
    simp only [splitOnChar]
    cases splitOnChar sep rest with
    | nil => simp
    | cons h t =>
      by_cases hc : c = sep <;> simp [hc]

theorem splitOnChar_no_sep (sep : Char) (s : Str) (h : ∀ c ∈ s, c ≠ sep) :
    splitOnChar sep s = [s] := by
  induction s with
  | nil => rfl
  | cons c rest ih =>
    have hr : splitOnChar sep rest = [rest] := ih (fun x hx => h x (List.mem_cons_of_mem c hx))
    have hc : c ≠ sep := h c (List.mem_cons_self c rest)
    simp [splitOnChar, hr, hc]

theorem splitOnChar_append (sep : Char) (s rest : Str) (h : ∀ c ∈ s, c ≠ sep) :
    splitOnChar sep (s ++ sep :: rest) = s :: splitOnChar sep rest := by
  induction s with
  | nil =>
    simp only [List.nil_append, splitOnChar]
    cases hr : splitOnChar sep rest with
    | nil => exact absurd hr (splitOnChar_ne_nil sep rest)
    | cons a t => simp
  | cons c s' ih =>
    have hc : c ≠ sep := h c (List.mem_cons_self c s')
    have ih' := ih (fun x hx => h x (List.mem_cons_of_mem c hx))
    simp only [List.cons_append, splitOnChar, List.append_eq, ih', if_neg hc]

theorem dropWhile_eq_self_of_none {p : Char → Bool} {l : Str}
    (h : ∀ c ∈ l, p c = false) : l.dropWhile p = l := by
  cases l with
  | nil => rfl
  | cons c rest =>
    have := h c (List.mem_cons_self c rest)
    simp [List.dropWhile, this]

theorem dropWhile_ne_nil_of_mem {p : Char → Bool} {l : Str} {x : Char}
    (hx : x ∈ l) (hpx : p x = false) : l.dropWhile p ≠ [] := by
  induction l with
  | nil => cases hx
  | cons c rest ih =>
    simp only [List.dropWhile]
    cases hc : p c with
    | false => simp
    | true =>
      rcases List.mem_cons.mp hx with h1 | h2
      · subst h1; rw [hc] at hpx; cases hpx
      · simpa using ih h2

theorem mem_dropWhile_of_mem {p : Char → Bool} {l : Str} {x : Char}
    (hx : x ∈ l) (hpx : p x = false) : x ∈ l.dropWhile p := by
  induction l with
  | nil => cases hx
  | cons c rest ih =>
    simp only [List.dropWhile]
    cases hc : p c with
    | false => simpa using hx
    | true =>
      rcases List.mem_cons.mp hx with h1 | h2
      · subst h1; rw [hc] at hpx; cases hpx
      · exact ih h2

theorem jsTrim_eq_self_of_no_ws {l : Str} (h : ∀ c ∈ l, isJsWs c = false) :
    jsTrim l = l := by
  unfold jsTrim
  rw [dropWhile_eq_self_of_none h,
      dropWhile_eq_self_of_none (fun c hc => h c (List.mem_reverse.mp hc)),
      List.reverse_reverse]

theorem jsTrim_ne_nil_of_mem {l : Str} {x : Char} (hx : x ∈ l)
    (hpx : isJsWs x = false) : jsTrim l ≠ [] := by
  unfold jsTrim
  intro hcontra
  have h2 : x ∈ (l.dropWhile isJsWs).reverse :=
    List.mem_reverse.mpr (mem_dropWhile_of_mem hx hpx)
  have h3 : (l.dropWhile isJsWs).reverse.dropWhile isJsWs ≠ [] :=
    dropWhile_ne_nil_of_mem h2 hpx
  exact h3 (by simpa using congrArg List.reverse hcontra)

/- ------------------------------------------------------------------
   Base64 / base64url (Buffer.toString('base64'), Buffer.from(base64),
   and the toBase64Url / fromBase64Url wrappers of index.mjs).
   ------------------------------------------------------------------ -/

def b64Alphabet : Str :=
  strChars "ABCDEFGHIJKLMNOPQRSTUVWXYZabcdefghijklmnopqrstuvwxyz0123456789+/"

def b64Char (n : Nat) : Char := b64Alphabet.getD n 'A'

def b64Index (c : Char) : Nat := b64Alphabet.findIdx (fun x => x == c)

/-- Standard padded base64 encoding of a byte list (Buffer.toString('base64')). -/
def toB64 : Bytes → Str
  | [] => []
  | [a] => [b64Char (a / 4), b64Char (a % 4 * 16), '=', '=']
  | [a, b] => [b64Char (a / 4), b64Char (a % 4 * 16 + b / 16), b64Char (b % 16 * 4), '=']
  | a :: b :: c :: rest =>
    b64Char (a / 4) :: b64Char (a % 4 * 16 + b / 16) ::
    b64Char (b % 16 * 4 + c / 64) :: b64Char (c % 64) :: toB64 rest

/-- The same encoding without the trailing '=' padding (helper for proofs). -/
def toB64NoPad : Bytes → Str
  | [] => []
  | [a] => [b64Char (a / 4), b64Char (a % 4 * 16)]
  | [a, b] => [b64Char (a / 4), b64Char (a % 4 * 16 + b / 16), b64Char (b % 16 * 4)]
  | a :: b :: c :: rest =>
    b64Char (a / 4) :: b64Char (a % 4 * 16 + b / 16) ::
    b64Char (b % 16 * 4 + c / 64) :: b64Char (c % 64) :: toB64NoPad rest

/-- Number of '=' padding characters the encoder appends. -/
def eqCount : Bytes → Nat
  | [] => 0
  | [_] => 2
  | [_, _] => 1
  | _ :: _ :: _ :: rest => eqCount rest

/-- Base64 decoding of a padded string (Buffer.from(padded, 'base64')).
Characters outside the alphabet decode through the index lookup default;
only the behaviour on well-formed base64 is relied upon. -/
def fromB64 : Str → Bytes
  | c1 :: c2 :: c3 :: c4 :: rest =>
    if c3 = '=' then [b64Index c1 * 4 + b64Index c2 / 16]
    else if c4 = '=' then
      [b64Index c1 * 4 + b64Index c2 / 16, b64Index c2 % 16 * 16 + b64Index c3 / 4]
    else
      (b64Index c1 * 4 + b64Index c2 / 16) ::
      (b64Index c2 % 16 * 16 + b64Index c3 / 4) ::
      (b64Index c3 % 4 * 64 + b64Index c4) :: fromB64 rest
  | _ => []

def urlMapChar (c : Char) : Char := if c = '+' then '-' else if c = '/' then '_' else c

def urlUnmapChar (c : Char) : Char := if c = '-' then '+' else if c = '_' then '/' else c

def stripTrailingPad (s : Str) : Str := (s.reverse.dropWhile (fun c => c == '=')).reverse

/-- toBase64Url of index.mjs: base64, '+' to '-', '/' to '_', strip '='. -/
def toBase64Url (b : Bytes) : Str := stripTrailingPad ((toB64 b).map urlMapChar)

/-- fromBase64Url of index.mjs: trim the input, map '-' back to '+' and
'_' back to '/', pad with '=' to a multiple of four, and decode. -/
def fromBase64Url (v : Str) : Bytes :=
  if jsTrim v = [] then []
  else
    fromB64 ((jsTrim v).map urlUnmapChar ++
      List.replicate ((4 - ((jsTrim v).map urlUnmapChar).length % 4) % 4) '=')

theorem b64Char_mem (n : Nat) : b64Char n ∈ b64Alphabet := by
  unfold b64Char
  by_cases h : n < b64Alphabet.length
  · rw [List.getD_eq_getElem _ _ h]
    exact List.getElem_mem h
  · rw [List.getD_eq_default _ _ (Nat.le_of_not_lt h)]
    decide

theorem b64Index_b64Char {n : Nat} (h : n < 64) : b64Index (b64Char n) = n := by
  have hall : ∀ m : Fin 64, b64Index (b64Char m.1) = m.1 := by decide
  exact hall ⟨n, h⟩

theorem toB64_mem (b : Bytes) : ∀ c ∈ toB64 b, c ∈ b64Alphabet ∨ c = '=' := by
  induction b using toB64.induct with
  | case1 => intro c hc; cases hc
  | case2 a =>
    intro c hc
    simp only [toB64, List.mem_cons, List.not_mem_nil, or_false] at hc
    rcases hc with h | h | h | h
    · exact Or.inl (h ▸ b64Char_mem _)
    · exact Or.inl (h ▸ b64Char_mem _)
    · exact Or.inr h
    · exact Or.inr h
  | case3 a b =>
    intro c hc
    simp only [toB64, List.mem_cons, List.not_mem_nil, or_false] at hc
    rcases hc with h | h | h | h
    · exact Or.inl (h ▸ b64Char_mem _)
    · exact Or.inl (h ▸ b64Char_mem _)
    · exact Or.inl (h ▸ b64Char_mem _)
    · exact Or.inr h
  | case4 a b c rest ih =>
    intro x hx
    simp only [toB64, List.mem_cons] at hx
    rcases hx with h | h | h | h | h
    · exact Or.inl (h ▸ b64Char_mem _)
    · exact Or.inl (h ▸ b64Char_mem _)
    · exact Or.inl (h ▸ b64Char_mem _)
    · exact Or.inl (h ▸ b64Char_mem _)
    · exact ih x h

theorem toB64NoPad_mem (b : Bytes) : ∀ c ∈ toB64NoPad b, c ∈ b64Alphabet := by
  induction b using toB64NoPad.induct with
  | case1 => intro c hc; cases hc
  | case2 a =>
    intro c hc
    simp only [toB64NoPad, List.mem_cons, List.not_mem_nil, or_false] at hc
    rcases hc with h | h
    · exact h ▸ b64Char_mem _
    · exact h ▸ b64Char_mem _
  | case3 a b =>
    intro c hc
    simp only [toB64NoPad, List.mem_cons, List.not_mem_nil, or_false] at hc
    rcases hc with h | h | h
    · exact h ▸ b64Char_mem _
    · exact h ▸ b64Char_mem _
    · exact h ▸ b64Char_mem _
  | case4 a b c rest ih =>
    intro x hx
    simp only [toB64NoPad, List.mem_cons] at hx
    rcases hx with h | h | h | h | h
    · exact h ▸ b64Char_mem _
    · exact h ▸ b64Char_mem _
    · exact h ▸ b64Char_mem _
    · exact h ▸ b64Char_mem _
    · exact ih x h

theorem toB64_eq_noPad_append (b : Bytes) :
    toB64 b = toB64NoPad b ++ List.replicate (eqCount b) '=' := by
  induction b using toB64.induct with
  | case1 => rfl
  | case2 a => rfl
  | case3 a b => rfl
  | case4 a b c rest ih =>
    simp only [toB64, toB64NoPad, eqCount, ih, List.cons_append]

theorem b64Char_ne_pad (n : Nat) : b64Char n ≠ '=' := by
  intro h
  have hm := b64Char_mem n
  rw [h] at hm
  revert hm
  decide

theorem alph_urlMap_ne_pad : ∀ c ∈ b64Alphabet, (urlMapChar c == '=') = false := by decide

theorem alph_urlMap_not_ws : ∀ c ∈ b64Alphabet, isJsWs (urlMapChar c) = false := by decide

theorem alph_urlMap_ne_dot : ∀ c ∈ b64Alphabet, urlMapChar c ≠ '.' := by decide

theorem alph_unmap_map : ∀ c ∈ b64Alphabet, urlUnmapChar (urlMapChar c) = c := by decide

theorem strip_append_replicate (x : Str) (k : Nat)
    (hx : ∀ c ∈ x, (c == '=') = false) :
    stripTrailingPad (x ++ List.replicate k '=') = x := by
  unfold stripTrailingPad
  rw [List.reverse_append, List.reverse_replicate]
  have hdrop1 : ∀ (n : Nat) (y : Str),
      (List.replicate n '=' ++ y).dropWhile (fun c => c == '=') =
      y.dropWhile (fun c => c == '=') := by
    intro n
    induction n with
    | zero => intro y; simp
    | succ m ih => intro y; simp [List.replicate_succ, List.dropWhile, ih]
  rw [hdrop1]
  rw [dropWhile_eq_self_of_none (fun c hc => hx c (List.mem_reverse.mp hc))]
  exact List.reverse_reverse x

theorem toBase64Url_eq_noPad (b : Bytes) :
    toBase64Url b = (toB64NoPad b).map urlMapChar := by
  unfold toBase64Url
  rw [toB64_eq_noPad_append, List.map_append]
  have hpad : urlMapChar '=' = '=' := by decide
  have hrep : (List.replicate (eqCount b) '=').map urlMapChar =
      List.replicate (eqCount b) '=' := by
    rw [List.map_replicate, hpad]
  rw [hrep]
  apply strip_append_replicate
  intro c hc
  rcases List.mem_map.mp hc with ⟨x, hx, rfl⟩
  exact alph_urlMap_ne_pad x (toB64NoPad_mem b x hx)

theorem noPad_padLength (b : Bytes) :
    (4 - (toB64NoPad b).length % 4) % 4 = eqCount b := by
  induction b using toB64NoPad.induct with
  | case1 => rfl
  | case2 a => rfl
  | case3 a b => rfl
  | case4 a b c rest ih =>
    simp only [toB64NoPad, List.length_cons, eqCount]
    omega

theorem toB64NoPad_ne_nil (b : Bytes) (hb : b ≠ []) : toB64NoPad b ≠ [] := by
  match b with
  | [] => exact absurd rfl hb
  | [a] => simp [toB64NoPad]
  | [a, b] => simp [toB64NoPad]
  | a :: b :: c :: rest => simp [toB64NoPad]

theorem fromB64_toB64 (b : Bytes) (hb : ∀ x ∈ b, x < 256) :
    fromB64 (toB64 b) = b := by
  induction b using toB64.induct with
  | case1 => rfl
  | case2 a =>
    have ha : a < 256 := hb a (by simp)
    simp only [toB64, fromB64, if_true]
    rw [b64Index_b64Char (by omega : a / 4 < 64),
        b64Index_b64Char (by omega : a % 4 * 16 < 64)]
    simp only [List.cons.injEq, and_true]
    omega
  | case3 a b =>
    have ha : a < 256 := hb a (by simp)
    have hbb : b < 256 := hb b (by simp)
    simp only [toB64, fromB64]
    rw [if_neg (b64Char_ne_pad _)]
    simp only [if_true]
    rw [b64Index_b64Char (by omega : a / 4 < 64),
        b64Index_b64Char (by omega : a % 4 * 16 + b / 16 < 64),
        b64Index_b64Char (by omega : b % 16 * 4 < 64)]
    simp only [List.cons.injEq, and_true]
    exact ⟨by omega, by omega⟩
  | case4 a b c rest ih =>
    have ha : a < 256 := hb a (by simp)
    have hbb : b < 256 := hb b (by simp)
    have hc : c < 256 := hb c (by simp)
    have ih' := ih (fun x hx => hb x (by simp [hx]))
    simp only [toB64, fromB64]
    rw [if_neg (b64Char_ne_pad _), if_neg (b64Char_ne_pad _)]
    rw [b64Index_b64Char (by omega : a / 4 < 64),
        b64Index_b64Char (by omega : a % 4 * 16 + b / 16 < 64),
        b64Index_b64Char (by omega : b % 16 * 4 + c / 64 < 64),
        b64Index_b64Char (by omega : c % 64 < 64)]
    rw [ih']
    simp only [List.cons.injEq, and_true]
    exact ⟨by omega, by omega, by omega⟩

theorem fromBase64Url_toBase64Url (b : Bytes) (hb : ∀ x ∈ b, x < 256) :
    fromBase64Url (toBase64Url b) = b := by
  rcases Decidable.em (b = []) with hnil | hne
  · subst hnil; rfl
  · rw [toBase64Url_eq_noPad]
    have hsc : ∀ c ∈ (toB64NoPad b).map urlMapChar, isJsWs c = false := by
      intro c hc
      rcases List.mem_map.mp hc with ⟨x, hx, rfl⟩
      exact alph_urlMap_not_ws x (toB64NoPad_mem b x hx)
    have htrim : jsTrim ((toB64NoPad b).map urlMapChar) = (toB64NoPad b).map urlMapChar :=
      jsTrim_eq_self_of_no_ws hsc
    have hsne : (toB64NoPad b).map urlMapChar ≠ [] := by
      intro h0
      exact toB64NoPad_ne_nil b hne (List.map_eq_nil_iff.mp h0)
    unfold fromBase64Url
    rw [htrim, if_neg hsne]
    have hunmap : ((toB64NoPad b).map urlMapChar).map urlUnmapChar = toB64NoPad b := by
      rw [List.map_map]
      have hcongr : ∀ x ∈ toB64NoPad b, (urlUnmapChar ∘ urlMapChar) x = id x :=
        fun x hx => alph_unmap_map x (toB64NoPad_mem b x hx)
      rw [List.map_congr_left hcongr, List.map_id]
    rw [hunmap, noPad_padLength, ← toB64_eq_noPad_append]
    exact fromB64_toB64 b hb

/- ------------------------------------------------------------------
   JSON values and the JavaScript coercions used by index.mjs.
   ------------------------------------------------------------------ -/

inductive Json where
  | null
  | bool (b : Bool)
  | num (n : Int)
  | str (s : String)
  | arr (items : List Json)
  | obj (fields : List (String × Json))

def joinComma : List String → String
  | [] => ""
  | [x] => x
  | x :: y :: rest => x ++ "," ++ joinComma (y :: rest)

mutual

/-- JavaScript abstract ToString on a JSON value (String(x)).  Numbers are
restricted to integers, matching every value this model is applied to. -/
def jsToString : Json → String
  | Json.null => "null"
  | Json.bool b => if b then "true" else "false"
  | Json.num n => toString n
  | Json.str s => s
  | Json.arr items => joinComma (jsToStringItems items)
  | Json.obj _ => "[object Object]"

/-- Array.prototype.toString joins elements with a comma; null elements
render as the empty string. -/
def jsToStringItems : List Json → List String
  | [] => []
  | Json.null :: rest => "" :: jsToStringItems rest
  | j :: rest => jsToString j :: jsToStringItems rest

end

def decDigitsVal (l : Str) : Nat := l.foldl (fun acc c => acc * 10 + (c.toNat - 48)) 0

/-- JavaScript Number(string) on the fragment exercised by the server:
an optionally signed decimal integer after trimming; the empty string is 0;
anything else is NaN (modelled as none).  Fractional, exponent and hex
forms fall outside the values this model is applied to. -/
def jsStrToNumber (s : String) : Option Int :=
  match jsTrim s.toList with
  | [] => some 0
  | '+' :: rest =>
    if rest ≠ [] ∧ rest.all Char.isDigit then some (Int.ofNat (decDigitsVal rest)) else none
  | '-' :: rest =>
    if rest ≠ [] ∧ rest.all Char.isDigit then some (-(Int.ofNat (decDigitsVal rest))) else none
  | l => if l.all Char.isDigit then some (Int.ofNat (decDigitsVal l)) else none

/-- JavaScript Number(x) where x may be undefined (none); none is NaN. -/
def jsToNumber (v : Option Json) : Option Int :=
  match v with
  | none => none
  | some Json.null => some 0
  | some (Json.bool b) => some (if b then 1 else 0)
  | some (Json.num n) => some n
  | some (Json.str s) => jsStrToNumber s
  | some (Json.arr items) => jsStrToNumber (jsToString (Json.arr items))
  | some (Json.obj _) => none

/-- The check `payload && typeof payload === 'object'` of index.mjs:
truthy and of object type, which admits objects and arrays and rejects
null and every primitive. -/
def jsObjectLike : Json → Bool
  | Json.obj _ => true
  | Json.arr _ => true
  | _ => false

/-- Property access on a JSON value (obj.k); duplicate keys resolve to the
last occurrence, as in a JavaScript object literal. -/
def jget (j : Json) (k : String) : Option Json :=
  match j with
  | Json.obj fields => (fields.reverse.find? (fun p => p.1 == k)).map (fun p => p.2)
  | _ => none

/-- String(x ?? ''): undefined (none) and null collapse to the empty string. -/
def jsCoalesceString (v : Option Json) : String :=
  match v with
  | none => ""
  | some Json.null => ""
  | some j => jsToString j

/- ------------------------------------------------------------------
   Runtime primitives external to the repository.
   ------------------------------------------------------------------ -/

/-- The Node runtime primitives used by index.mjs that are not themselves
code of this repository: UTF-8 transcoding, JSON serialization, AES-256-GCM
(aeadEnc yields ciphertext and tag; aeadDec yields the plaintext or fails
authentication), and the hex SHA-256 digest.  Their documented contracts
appear as hypotheses of the theorems that rely on them. -/
structure JsRuntime where
  utf8Enc : String → Bytes
  utf8Dec : Bytes → String
  jsonStringify : Json → String
  jsonParse : String → Option Json
  aeadEnc : Bytes → Bytes → Bytes → Bytes × Bytes
  aeadDec : Bytes → Bytes → Bytes → Bytes → Option Bytes
  sha256hex : Bytes → String

/- ------------------------------------------------------------------
   Session codec (encryptSessionPayload / decryptSessionPayload) and
   session constants of index.mjs.
   ------------------------------------------------------------------ -/

def sessionCookieName : String := "yokins_session"

def rememberMeMaxAgeMs : Int := 30 * 24 * 60 * 60 * 1000

def sessionMaxAgeMs : Int := 8 * 60 * 60 * 1000

def sessionTokenVersion : Int := 1

/-- encryptSessionPayload of index.mjs.  The fresh random 12-byte nonce the
source draws from crypto.randomBytes is passed explicitly as iv. -/
def encryptSessionPayload (P : JsRuntime) (key iv : Bytes) (payload : Json) : Str :=
  toBase64Url iv ++ '.' ::
    toBase64Url (P.aeadEnc key iv (P.utf8Enc (P.jsonStringify payload))).1 ++ '.' ::
    toBase64Url (P.aeadEnc key iv (P.utf8Enc (P.jsonStringify payload))).2

/-- decryptSessionPayload of index.mjs: trim, split on '.', expect exactly
three segments, base64url-decode them, check nonce and tag lengths, decrypt
with authentication, JSON-parse, and accept only truthy objects.  Every
throwing branch of the source is caught there and yields null (none). -/
def decryptSessionPayload (P : JsRuntime) (key : Bytes) (token : Str) : Option Json :=
  if jsTrim token = [] then none
  else
    if (splitOnChar '.' (jsTrim token)).length ≠ 3 then none
    else
      if (fromBase64Url ((splitOnChar '.' (jsTrim token)).getD 0 [])).length ≠ 12 ∨
         (fromBase64Url ((splitOnChar '.' (jsTrim token)).getD 2 [])).length ≠ 16 then none
      else
        match P.aeadDec key
            (fromBase64Url ((splitOnChar '.' (jsTrim token)).getD 0 []))
            (fromBase64Url ((splitOnChar '.' (jsTrim token)).getD 1 []))
            (fromBase64Url ((splitOnChar '.' (jsTrim token)).getD 2 [])) with
        | none => none
        | some decrypted =>
          match P.jsonParse (P.utf8Dec decrypted) with
          | none => none
          | some payload => if jsObjectLike payload then some payload else none

/-- createSessionToken of index.mjs; now and the random nonce are explicit. -/
def createSessionToken (P : JsRuntime) (key iv : Bytes) (userName : String)
    (rememberMe : Bool) (nowMs : Int) : Str :=
  encryptSessionPayload P key iv (Json.obj
    [("ver", Json.num sessionTokenVersion),
     ("sub", Json.str userName),
     ("iat", Json.num nowMs),
     ("exp", Json.num (nowMs + (if rememberMe then rememberMeMaxAgeMs else sessionMaxAgeMs)))])

/- ------------------------------------------------------------------
   decodeURIComponent (ECMA-262 Decode with no reserved set) and
   parseCookies of index.mjs.
   ------------------------------------------------------------------ -/

def hexDigitVal (c : Char) : Option Nat :=
  if '0' ≤ c ∧ c ≤ '9' then some (c.toNat - 48)
  else if 'A' ≤ c ∧ c ≤ 'F' then some (c.toNat - 55)
  else if 'a' ≤ c ∧ c ≤ 'f' then some (c.toNat - 87)
  else none

/-- First pass of the ECMA-262 Decode algorithm: replace every '%' escape
by its byte, throwing (none) when a '%' is not followed by two hex digits. -/
def pctScan : Str → Option (List (Sum Char Nat))
  | [] => some []
  | '%' :: h1 :: h2 :: rest =>
    match hexDigitVal h1, hexDigitVal h2 with
    | some a, some b => (pctScan rest).map (fun t => Sum.inr (a * 16 + b) :: t)
    | _, _ => none
  | '%' :: [] => none
  | '%' :: [_] => none
  | c :: rest => (pctScan rest).map (fun t => Sum.inl c :: t)

def isUtf8Cont (b : Nat) : Bool := decide (0x80 ≤ b) && decide (b < 0xc0)

/-- Second pass of Decode: reassemble UTF-8 byte sequences introduced by
escapes, throwing (none) on malformed, overlong, surrogate or out-of-range
sequences.  Code points are represented as single characters. -/
def utf8Assemble : List (Sum Char Nat) → Option Str
  | [] => some []
  | Sum.inl c :: rest => (utf8Assemble rest).map (fun t => c :: t)
  | Sum.inr b :: rest =>
    if b < 0x80 then (utf8Assemble rest).map (fun t => Char.ofNat b :: t)
    else if 0xc2 ≤ b ∧ b ≤ 0xdf then
      match rest with
      | Sum.inr b2 :: rest2 =>
        if isUtf8Cont b2 then
          (utf8Assemble rest2).map (fun t => Char.ofNat ((b - 0xc0) * 64 + (b2 - 0x80)) :: t)
        else none
      | _ => none
    else if 0xe0 ≤ b ∧ b ≤ 0xef then
      match rest with
      | Sum.inr b2 :: Sum.inr b3 :: rest3 =>
        if isUtf8Cont b2 ∧ isUtf8Cont b3 ∧
           0x800 ≤ (b - 0xe0) * 4096 + (b2 - 0x80) * 64 + (b3 - 0x80) ∧
           ¬ (0xd800 ≤ (b - 0xe0) * 4096 + (b2 - 0x80) * 64 + (b3 - 0x80) ∧
              (b - 0xe0) * 4096 + (b2 - 0x80) * 64 + (b3 - 0x80) ≤ 0xdfff) then
          (utf8Assemble rest3).map
            (fun t => Char.ofNat ((b - 0xe0) * 4096 + (b2 - 0x80) * 64 + (b3 - 0x80)) :: t)
        else none
      | _ => none
    else if 0xf0 ≤ b ∧ b ≤ 0xf4 then
      match rest with
      | Sum.inr b2 :: Sum.inr b3 :: Sum.inr b4 :: rest4 =>
        if isUtf8Cont b2 ∧ isUtf8Cont b3 ∧ isUtf8Cont b4 ∧
           0x10000 ≤ (b - 0xf0) * 262144 + (b2 - 0x80) * 4096 + (b3 - 0x80) * 64 + (b4 - 0x80) ∧
           (b - 0xf0) * 262144 + (b2 - 0x80) * 4096 + (b3 - 0x80) * 64 + (b4 - 0x80) ≤ 0x10ffff then
          (utf8Assemble rest4).map
            (fun t => Char.ofNat
              ((b - 0xf0) * 262144 + (b2 - 0x80) * 4096 + (b3 - 0x80) * 64 + (b4 - 0x80)) :: t)
        else none
      | _ => none
    else none

/-- decodeURIComponent; none models the URIError throw. -/
def jsDecodeURIComponent (s : Str) : Option Str :=
  match pctScan s with
  | none => none
  | some items => utf8Assemble items

/-- Array.prototype.join with a one-character separator. -/
def joinWithChar (sep : Char) : List Str → Str
  | [] => []
  | [x] => x
  | x :: y :: rest => x ++ sep :: joinWithChar sep (y :: rest)

/-- parseCookies of index.mjs, applied to the ';'-separated pairs: for each
pair the key is the trimmed text before the first '=', the raw value is the
rest rejoined on '=' and trimmed, and the stored value is its
decodeURIComponent.  The JS object write result[key] = value is modelled as
an append with a last-occurrence lookup.  A decodeURIComponent throw
propagates as none. -/
def parseCookiePairs : List Str → Option (List (String × String))
  | [] => some []
  | pair :: rest =>
    if jsTrim ((splitOnChar '=' pair).getD 0 []) = [] then parseCookiePairs rest
    else
      match jsDecodeURIComponent (jsTrim (joinWithChar '=' ((splitOnChar '=' pair).drop 1))) with
      | none => none
      | some v =>
        (parseCookiePairs rest).map
          (fun tail => (String.mk (jsTrim ((splitOnChar '=' pair).getD 0 [])), String.mk v) :: tail)

def parseCookies (headerValue : Str) : Option (List (String × String)) :=
  if jsTrim headerValue = [] then some []
  else parseCookiePairs (splitOnChar ';' (jsTrim headerValue))

/-- Lookup in the cookie record; the last write to a key wins. -/
def cookieGet (cookies : List (String × String)) (k : String) : Option String :=
  (cookies.reverse.find? (fun p => p.1 == k)).map (fun p => p.2)

/- ------------------------------------------------------------------
   Credential resolution (resolveSessionUser / resolveApiKeyUser and the
   authUser middleware of index.mjs).  The database tables are modelled
   as row lists; SQLite integer columns are Int with JS truthiness being
   inequality with zero.  A thrown exception is Except.error.
   ------------------------------------------------------------------ -/

inductive Role where
  | admin
  | user
deriving DecidableEq, Repr

structure Principal where
  username : String
  role : Role
deriving DecidableEq, Repr

/-- One row of the Users table as selected by resolveSessionUser. -/
structure UserRow where
  userName : String
  enabled : Int
  isAdmin : Int
deriving DecidableEq, Repr

/-- One row of the ApiKeys table as selected by resolveApiKeyUser. -/
structure ApiKeyRow where
  apiKeyId : String
  keyName : String
  keyHash : String
  createdAt : String
  expiresAt : Option String
  enabled : Int
deriving DecidableEq, Repr

/-- buildSessionUser of index.mjs on a non-null row. -/
def buildSessionUser (row : UserRow) : Principal :=
  { username := row.userName, role := if row.isAdmin ≠ 0 then Role.admin else Role.user }

/-- getSessionTokenFromRequest of index.mjs; none models the
decodeURIComponent throw escaping from parseCookies. -/
def getSessionTokenFromRequest (cookieHeader : Str) : Option Str :=
  (parseCookies cookieHeader).map
    (fun cookies => jsTrim (strChars ((cookieGet cookies sessionCookieName).getD "")))

/-- The strict comparison payload?.ver !== SESSION_TOKEN_VERSION: true
exactly when the property is the number 1. -/
def verMatches (v : Option Json) : Bool :=
  match v with
  | some (Json.num n) => n == sessionTokenVersion
  | _ => false

/-- resolveSessionUser of index.mjs.  nowMs is Date.now(). -/
def resolveSessionUser (P : JsRuntime) (key : Bytes) (users : List UserRow)
    (nowMs : Int) (cookieHeader : Str) : Except Unit (Option Principal) :=
  match getSessionTokenFromRequest cookieHeader with
  | none => Except.error ()
  | some sessionToken =>
    if sessionToken = [] then Except.ok none
    else
      if verMatches ((decryptSessionPayload P key sessionToken).bind (fun p => jget p "ver")) = false
         ∨ jsTrimStr (jsCoalesceString
             ((decryptSessionPayload P key sessionToken).bind (fun p => jget p "sub"))) = ""
         ∨ jsToNumber ((decryptSessionPayload P key sessionToken).bind (fun p => jget p "exp")) = none
         ∨ (jsToNumber ((decryptSessionPayload P key sessionToken).bind
             (fun p => jget p "exp"))).getD 0 ≤ nowMs then
        Except.ok none
      else
        match users.find? (fun r => r.userName == jsTrimStr (jsCoalesceString
            ((decryptSessionPayload P key sessionToken).bind (fun p => jget p "sub")))) with
        | none => Except.ok none
        | some row =>
          if row.enabled = 0 then Except.ok none
          else Except.ok (some (buildSessionUser row))

/-- hashApiKey of index.mjs: hex SHA-256 of "apikey:" before the trimmed key. -/
def hashApiKey (P : JsRuntime) (apiKey : String) : String :=
  P.sha256hex (P.utf8Enc ("apikey:" ++ jsTrimStr apiKey))

/-- The regex match of the Authorization header against ^Bearer\s+(.+)$ with
the case-insensitive flag, applied by resolveApiKeyUser to the trimmed
header, followed by String(match[1]).trim().  The dot refuses line
terminators, so a match requires the remainder after the whitespace run to
be nonempty and terminator-free. -/
def bearerToken (header : String) : Option String :=
  if header.toList.length < 7 then none
  else if ¬ ((header.toList.take 6).map Char.toLower = strChars "bearer") then none
  else
    if (header.toList.drop 6).takeWhile isJsWs = [] then none
    else
      if (header.toList.drop 6).dropWhile isJsWs = [] ∨
         ((header.toList.drop 6).dropWhile isJsWs).any isLineTerm then none
      else some (String.mk (jsTrim ((header.toList.drop 6).dropWhile isJsWs)))

/-- resolveApiKeyUser of index.mjs.  nowIso is asIsoNow(), the current time
as the ISO-8601 string the source compares against with string order. -/
def resolveApiKeyUser (P : JsRuntime) (apiKeys : List ApiKeyRow) (nowIso : String)
    (authorizationHeader : String) : Option Principal :=
  match bearerToken (jsTrimStr authorizationHeader) with
  | none => none
  | some apiKey =>
    if apiKey = "" then none
    else
      match apiKeys.find? (fun r => r.keyHash == hashApiKey P apiKey) with
      | none => none
      | some row =>
        if row.enabled = 0 then none
        else
          if jsTrimStr (row.expiresAt.getD "") ≠ "" ∧ jsTrimStr (row.expiresAt.getD "") ≤ nowIso
          then none
          else some { username := "apikey:" ++ row.keyName, role := Role.user }

/-- The authUser middleware of index.mjs: req.authUser =
resolveSessionUser(req) ?? resolveApiKeyUser(req); a throw from the session
resolver propagates. -/
def resolveAuthUser (P : JsRuntime) (key : Bytes) (users : List UserRow)
    (apiKeys : List ApiKeyRow) (nowMs : Int) (nowIso : String)
    (cookieHeader : Str) (authorizationHeader : String) : Except Unit (Option Principal) :=
  match resolveSessionUser P key users nowMs cookieHeader with
  | Except.error e => Except.error e
  | Except.ok (some u) => Except.ok (some u)
  | Except.ok none => Except.ok (resolveApiKeyUser P apiKeys nowIso authorizationHeader)

/- ------------------------------------------------------------------
   Authorization gates (requireAuth / requireAdmin, the public allowlist
   middleware, and the inline doc-class gate of index.mjs).
   ------------------------------------------------------------------ -/

structure GateReject where
  status : Nat
  message : String
deriving DecidableEq, Repr

def resp401 : GateReject := { status := 401, message := "authentication required" }

def resp403 : GateReject := { status := 403, message := "admin role required" }

/-- requireAuth of index.mjs: some is a short-circuiting rejection, none
lets the pipeline continue. -/
def requireAuth (u : Option Principal) : Option GateReject :=
  if u = none then some resp401 else none

/-- requireAdmin of index.mjs. -/
def requireAdmin (u : Option Principal) : Option GateReject :=
  match u with
  | none => some resp401
  | some p => if p.role ≠ Role.admin then some resp403 else none

def publicApiPaths : List String :=
  ["/auth/login", "/auth/me", "/auth/logout", "/internal/documents-inserted",
   "/documents/events"]

/-- The app.use('/api', ...) middleware: public paths skip the gate,
everything else runs requireAuth.  relPath is req.path inside the mount,
with the /api prefix stripped as Express does. -/
def apiGateMiddleware (relPath : String) (u : Option Principal) : Option GateReject :=
  if publicApiPaths.contains relPath then none else requireAuth u

/-- Express mount matching for app.use('/api/admin', requireAdmin):
the path segment /admin at the start of the mount-relative path. -/
def isAdminMount (relPath : String) : Bool :=
  relPath == "/admin" || (relPath.toList.take 7 == strChars "/admin/")

/-- The request pipeline a request to an /api route traverses before its
handler body: the allowlist middleware, then requireAdmin on the /api/admin
mount.  The handler runs only when the result is none. -/
def apiPipeline (relPath : String) (u : Option Principal) : Option GateReject :=
  match apiGateMiddleware relPath u with
  | some r => some r
  | none => if isAdminMount relPath then requireAdmin u else none

/-- The inline gate at the top of the PATCH /api/documents/:id/doc-class
handler of index.mjs. -/
def docClassPatchGate (u : Option Principal) : Option GateReject :=
  match u with
  | none => some resp401
  | some p => if p.role ≠ Role.admin then some resp403 else none

/- ------------------------------------------------------------------
   Server fingerprint and session-secret key derivation
   (resolveServerFingerprint / getSessionSecretKey of index.mjs).
   ------------------------------------------------------------------ -/

/-- The machine-dependent inputs of resolveServerFingerprint.  rawMacs is
the flattened list of the mac fields of every address entry of
os.networkInterfaces(), in iteration order; interfacesThrow models the
catch branch that discards them. -/
structure MachineInfo where
  hostname : String
  osPlatform : String
  osRelease : String
  arch : String
  cpuCount : Nat
  rawMacs : List String
  interfacesThrow : Bool
deriving Repr

def lexLeChars : Str → Str → Bool
  | [], _ => true
  | _ :: _, [] => false
  | a :: as, b :: bs =>
    if a.toNat < b.toNat then true
    else if b.toNat < a.toNat then false
    else lexLeChars as bs

def strLe (a b : String) : Bool := lexLeChars a.toList b.toList

def insertSorted (x : String) : List String → List String
  | [] => [x]
  | y :: ys => if strLe x y then x :: y :: ys else y :: insertSorted x ys

/-- Array.prototype.sort with the default string comparator. -/
def jsSortStrings : List String → List String
  | [] => []
  | x :: xs => insertSorted x (jsSortStrings xs)

def joinPipe : List String → String
  | [] => ""
  | [x] => x
  | x :: y :: rest => x ++ "|" ++ joinPipe (y :: rest)

def zeroMac : String := "00:00:00:00:00:00"

/-- The mac-address component of the fingerprint: every interface mac,
trimmed and lowercased, the empty and all-zero ones dropped, sorted;
the catch branch yields the empty list.  No de-duplication occurs. -/
def fingerprintMacs (m : MachineInfo) : List String :=
  if m.interfacesThrow then []
  else
    jsSortStrings ((m.rawMacs.map (fun s => jsToLowerStr (jsTrimStr s))).filter
      (fun mac => mac ≠ "" ∧ mac ≠ zeroMac))

/-- The fingerprintParts array of resolveServerFingerprint: the five host
fields before the macs, each entry trimmed and empties dropped. -/
def fingerprintParts (m : MachineInfo) : List String :=
  (([m.hostname, m.osPlatform, m.osRelease, m.arch, toString m.cpuCount] ++
      fingerprintMacs m).map jsTrimStr).filter (fun p => p ≠ "")

/-- resolveServerFingerprint of index.mjs. -/
def resolveServerFingerprint (m : MachineInfo) : String :=
  if fingerprintParts m = [] then "" else joinPipe (fingerprintParts m)

def dedupKeepFirstGo : List String → List String → List String
  | [], _ => []
  | x :: xs, seen =>
    if x ∈ seen then dedupKeepFirstGo xs seen else x :: dedupKeepFirstGo xs (x :: seen)

def dedupKeepFirst (l : List String) : List String := dedupKeepFirstGo l []

/-- The fingerprint as the claim words it, with the mac addresses sorted
and de-duplicated; stated only to compare against
resolveServerFingerprint, which keeps duplicates. -/
def fingerprintSpecDeduped (m : MachineInfo) : String :=
  if (([m.hostname, m.osPlatform, m.osRelease, m.arch, toString m.cpuCount] ++
      dedupKeepFirst (fingerprintMacs m)).map jsTrimStr).filter (fun p => p ≠ "") = [] then ""
  else
    joinPipe ((([m.hostname, m.osPlatform, m.osRelease, m.arch, toString m.cpuCount] ++
      dedupKeepFirst (fingerprintMacs m)).map jsTrimStr).filter (fun p => p ≠ ""))

/-- getSessionSecretKey of index.mjs.  utf8Enc and sha256 stand for the
Node hashing primitives; the env variables are None when unset; rand is
the crypto.randomBytes(32) draw of the last branch.  The one-time warning
log of the fallback branches is a side effect outside the model. -/
def getSessionSecretKey (utf8Enc : String → Bytes) (sha256 : Bytes → Bytes)
    (envApiSessionSecret envAppSecret : Option String) (m : MachineInfo)
    (rand : Bytes) : Bytes :=
  if jsTrimStr (envApiSessionSecret.getD (envAppSecret.getD "")) ≠ "" then
    sha256 (utf8Enc (jsTrimStr (envApiSessionSecret.getD (envAppSecret.getD ""))))
  else
    if resolveServerFingerprint m ≠ "" then
      sha256 (utf8Enc ("server-fingerprint:" ++ resolveServerFingerprint m))
    else
      sha256 rand

/- ------------------------------------------------------------------
   Change-event bus (toSseData / broadcastDocumentsChanged) and the
   trigger endpoint POST /api/internal/documents-inserted of index.mjs.
   ------------------------------------------------------------------ -/

/-- One registered SSE connection.  writeOk models whether res.write
succeeds on it (the catch branch deletes the client on failure). -/
structure Subscriber where
  sid : Nat
  writeOk : Bool
deriving DecidableEq, Repr

/-- The module state documentEventClients (insertion-ordered, as a Set
iterates) together with documentEventSequence. -/
structure BusState where
  clients : List Subscriber
  seq : Nat
deriving DecidableEq, Repr

/-- One successful res.write of an event to one subscriber.  eventId
restates the sequence number stamped inside the body text. -/
structure Delivery where
  sid : Nat
  eventId : Nat
  body : String
deriving DecidableEq, Repr

/-- toSseData of index.mjs: increments the sequence and renders the SSE
frame; returns the new sequence value with the frame. -/
def toSseData (P : JsRuntime) (seq : Nat) (eventName : String) (payload : Json) :
    Nat × String :=
  (seq + 1,
   "id: " ++ toString (seq + 1) ++ "\nevent: " ++ eventName ++ "\ndata: " ++
     P.jsonStringify payload ++ "\n\n")

/-- The object literal spread of broadcastDocumentsChanged: base fields in
insertion order, later fields overriding earlier ones. -/
def objSpread (base extra : List (String × Json)) : List (String × Json) :=
  (base.filter (fun p => ¬ (extra.map (fun q => q.1)).contains p.1)) ++ extra

/-- The event payload built by broadcastDocumentsChanged. -/
def broadcastPayloadJson (nowIso : String) (payload : List (String × Json)) : Json :=
  Json.obj (objSpread
    [("event", Json.str "documents_changed"), ("occurredAt", Json.str nowIso)] payload)

/-- The for-loop of broadcastDocumentsChanged over the client set: a
successful write keeps the client and records the delivery; a throwing
write deletes the client (deleting the current element during Set
iteration is safe and the loop proceeds with the rest). -/
def deliverAll (eid : Nat) (body : String) : List Subscriber → List Subscriber × List Delivery
  | [] => ([], [])
  | c :: rest =>
    if c.writeOk then
      ((c :: (deliverAll eid body rest).1),
       ({ sid := c.sid, eventId := eid, body := body } :: (deliverAll eid body rest).2))
    else deliverAll eid body rest

/-- broadcastDocumentsChanged of index.mjs: an early return when no client
is registered (the sequence does not advance), otherwise one toSseData
frame written to every registered client. -/
def broadcastDocumentsChanged (P : JsRuntime) (nowIso : String) (st : BusState)
    (payload : List (String × Json)) : BusState × List Delivery :=
  if st.clients = [] then (st, [])
  else
    ({ clients := (deliverAll (toSseData P st.seq "documents_changed"
          (broadcastPayloadJson nowIso payload)).1
          (toSseData P st.seq "documents_changed" (broadcastPayloadJson nowIso payload)).2
          st.clients).1,
       seq := (toSseData P st.seq "documents_changed" (broadcastPayloadJson nowIso payload)).1 },
     (deliverAll (toSseData P st.seq "documents_changed"
          (broadcastPayloadJson nowIso payload)).1
          (toSseData P st.seq "documents_changed" (broadcastPayloadJson nowIso payload)).2
          st.clients).2)

/-- A sequence of broadcastDocumentsChanged calls, accumulating deliveries. -/
def runPublishes (P : JsRuntime) (nowIso : String) (st : BusState) :
    List (List (String × Json)) → BusState × List Delivery
  | [] => (st, [])
  | p :: ps =>
    ((runPublishes P nowIso (broadcastDocumentsChanged P nowIso st p).1 ps).1,
     (broadcastDocumentsChanged P nowIso st p).2 ++
       (runPublishes P nowIso (broadcastDocumentsChanged P nowIso st p).1 ps).2)

/-- isLoopbackAddress of index.mjs. -/
def isLoopbackAddress (rawAddress : String) : Bool :=
  if jsToLowerStr (jsTrimStr rawAddress) = "" then false
  else
    jsToLowerStr (jsTrimStr rawAddress) == "::1" ||
    jsToLowerStr (jsTrimStr rawAddress) == "127.0.0.1" ||
    jsToLowerStr (jsTrimStr rawAddress) == "::ffff:127.0.0.1" ||
    jsToLowerStr (jsTrimStr rawAddress) == "localhost"

/-- The inbound fields of a trigger request.  Body fields are taken as the
strings the handler coerces them to; none models an absent header or an
absent socket address. -/
structure TriggerRequest where
  monitorHeaderToken : Option String
  xForwardedFor : Option String
  remoteAddress : Option String
  bodyDocumentId : Option String
  bodyReason : Option String
deriving Repr

/-- isLoopbackRequest of index.mjs: the first comma-separated entry of
x-forwarded-for, then the socket remote address. -/
def isLoopbackRequest (req : TriggerRequest) : Bool :=
  if isLoopbackAddress (String.mk (jsTrim
      ((splitOnChar ',' (strChars (req.xForwardedFor.getD ""))).getD 0 []))) then true
  else isLoopbackAddress (req.remoteAddress.getD "")

/-- The payload the handler passes to broadcastDocumentsChanged: source,
reason (defaulting to monitor), and the document id or null. -/
def triggerPayload (req : TriggerRequest) : List (String × Json) :=
  [("source", Json.str "monitor"),
   ("reason", if jsTrimStr (req.bodyReason.getD "") = "" then Json.str "monitor"
              else Json.str (jsTrimStr (req.bodyReason.getD ""))),
   ("documentId", if jsTrimStr (req.bodyDocumentId.getD "") = "" then Json.null
                  else Json.str (jsTrimStr (req.bodyDocumentId.getD "")))]

/-- The POST /api/internal/documents-inserted handler: with a configured
monitor token the header must match it (401 otherwise); with no configured
token the caller must be loopback (403 otherwise); an accepted request
broadcasts one documents_changed event and answers 200. -/
def documentsInsertedHandler (P : JsRuntime) (monitorEventToken : String)
    (nowIso : String) (req : TriggerRequest) (st : BusState) :
    Nat × BusState × List Delivery :=
  if monitorEventToken ≠ "" ∧
     (jsTrimStr (req.monitorHeaderToken.getD "") = "" ∨
      jsTrimStr (req.monitorHeaderToken.getD "") ≠ monitorEventToken) then
    (401, st, [])
  else if monitorEventToken = "" ∧ ¬ isLoopbackRequest req then
    (403, st, [])
  else
    (200,
     (broadcastDocumentsChanged P nowIso st (triggerPayload req)).1,
     (broadcastDocumentsChanged P nowIso st (triggerPayload req)).2)

/- ------------------------------------------------------------------
   Codec round-trip helper lemmas.
   ------------------------------------------------------------------ -/

theorem toBase64Url_no_ws (x : Bytes) : ∀ c ∈ toBase64Url x, isJsWs c = false := by
  intro c hc
  rw [toBase64Url_eq_noPad] at hc
  rcases List.mem_map.mp hc with ⟨y, hy, rfl⟩
  exact alph_urlMap_not_ws y (toB64NoPad_mem x y hy)

theorem toBase64Url_ne_dot (x : Bytes) : ∀ c ∈ toBase64Url x, c ≠ '.' := by
  intro c hc
  rw [toBase64Url_eq_noPad] at hc
  rcases List.mem_map.mp hc with ⟨y, hy, rfl⟩
  exact alph_urlMap_ne_dot y (toB64NoPad_mem x y hy)

theorem sessionToken_split (iv ct tag : Bytes) :
    splitOnChar '.' (toBase64Url iv ++ '.' :: toBase64Url ct ++ '.' :: toBase64Url tag) =
    [toBase64Url iv, toBase64Url ct, toBase64Url tag] := by
  rw [List.append_assoc, List.cons_append]
  rw [splitOnChar_append '.' _ _ (toBase64Url_ne_dot iv),
      splitOnChar_append '.' _ _ (toBase64Url_ne_dot ct),
      splitOnChar_no_sep '.' _ (toBase64Url_ne_dot tag)]

theorem sessionToken_no_ws (iv ct tag : Bytes) :
    ∀ c ∈ toBase64Url iv ++ '.' :: toBase64Url ct ++ '.' :: toBase64Url tag,
      isJsWs c = false := by
  intro c hc
  have hc' : c ∈ toBase64Url iv ∨ c = '.' ∨ c ∈ toBase64Url ct ∨ c ∈ toBase64Url tag := by
    simp only [List.mem_append, List.mem_cons] at hc
    tauto
  rcases hc' with h | h | h | h
  · exact toBase64Url_no_ws iv c h
  · subst h; decide
  · exact toBase64Url_no_ws ct c h
  · exact toBase64Url_no_ws tag c h

theorem sessionToken_ne_nil (iv ct tag : Bytes) :
    toBase64Url iv ++ '.' :: toBase64Url ct ++ '.' :: toBase64Url tag ≠ [] := by
  simp

/-- The round trip of the session codec, for any runtime whose AES-GCM,
UTF-8 and JSON primitives satisfy their contracts on the sealed payload. -/
theorem decrypt_encrypt_helper (P : JsRuntime) (key iv ct tag : Bytes) (payload : Json)
    (henc : P.aeadEnc key iv (P.utf8Enc (P.jsonStringify payload)) = (ct, tag))
    (hivL : iv.length = 12) (hivB : ∀ x ∈ iv, x < 256)
    (hctB : ∀ x ∈ ct, x < 256)
    (htagL : tag.length = 16) (htagB : ∀ x ∈ tag, x < 256)
    (hdec : P.aeadDec key iv ct tag = some (P.utf8Enc (P.jsonStringify payload)))
    (hutf : P.utf8Dec (P.utf8Enc (P.jsonStringify payload)) = P.jsonStringify payload)
    (hparse : P.jsonParse (P.jsonStringify payload) = some payload)
    (hobj : jsObjectLike payload = true) :
    decryptSessionPayload P key (encryptSessionPayload P key iv payload) = some payload := by
  have htok : encryptSessionPayload P key iv payload =
      toBase64Url iv ++ '.' :: toBase64Url ct ++ '.' :: toBase64Url tag := by
    unfold encryptSessionPayload
    rw [henc]
  rw [htok]
  have htrim : jsTrim (toBase64Url iv ++ '.' :: toBase64Url ct ++ '.' :: toBase64Url tag) =
      toBase64Url iv ++ '.' :: toBase64Url ct ++ '.' :: toBase64Url tag :=
    jsTrim_eq_self_of_no_ws (sessionToken_no_ws iv ct tag)
  unfold decryptSessionPayload
  rw [htrim, if_neg (sessionToken_ne_nil iv ct tag), sessionToken_split iv ct tag]
  rw [if_neg (by simp : ¬ ([toBase64Url iv, toBase64Url ct, toBase64Url tag].length ≠ 3))]
  simp only [List.getD_cons_zero, List.getD_cons_succ]
  rw [fromBase64Url_toBase64Url iv hivB, fromBase64Url_toBase64Url ct hctB,
      fromBase64Url_toBase64Url tag htagB]
  rw [if_neg (by simp [hivL, htagL] : ¬ (iv.length ≠ 12 ∨ tag.length ≠ 16))]
  simp only [hdec, hutf, hparse, hobj, if_true]

/- ------------------------------------------------------------------
   Concrete runtime used by witnesses: identity-style transcoding, a
   plaintext-passthrough AEAD with a constant 16-byte tag, and a JSON
   oracle fixed to one value.  It satisfies every runtime contract the
   theorems hypothesise, at the instantiation points the witnesses use. -/

def oracleRuntime (j : Json) : JsRuntime :=
  { utf8Enc := fun s => s.toList.map Char.toNat
  , utf8Dec := fun b => String.mk (b.map Char.ofNat)
  , jsonStringify := fun _ => ""
  , jsonParse := fun _ => some j
  , aeadEnc := fun _ _ pt => (pt, List.replicate 16 0)
  , aeadDec := fun _ _ ct tag => if tag = List.replicate 16 0 then some ct else none
  , sha256hex := fun b => String.mk (b.map Char.ofNat) }

def ivZero : Bytes := List.replicate 12 0

/- ------------------------------------------------------------------
   Claim C5.
   ------------------------------------------------------------------ -/

/-- C5: for every session payload that is a JSON-representable object,
opening (decryptSessionPayload) the token produced by sealing
(encryptSessionPayload) that payload under the same process key returns a
payload equal to the input.  JSON-representability and the AES-GCM /
UTF-8 primitive contracts appear as hypotheses on the runtime. -/
theorem claim_C5_seal_open_roundtrip (P : JsRuntime) (key iv : Bytes) (payload : Json)
    (hivL : iv.length = 12) (hivB : ∀ x ∈ iv, x < 256)
    (hctB : ∀ x ∈ (P.aeadEnc key iv (P.utf8Enc (P.jsonStringify payload))).1, x < 256)
    (htagL : (P.aeadEnc key iv (P.utf8Enc (P.jsonStringify payload))).2.length = 16)
    (htagB : ∀ x ∈ (P.aeadEnc key iv (P.utf8Enc (P.jsonStringify payload))).2, x < 256)
    (hdec : P.aeadDec key iv (P.aeadEnc key iv (P.utf8Enc (P.jsonStringify payload))).1
        (P.aeadEnc key iv (P.utf8Enc (P.jsonStringify payload))).2 =
        some (P.utf8Enc (P.jsonStringify payload)))
    (hutf : P.utf8Dec (P.utf8Enc (P.jsonStringify payload)) = P.jsonStringify payload)
    (hparse : P.jsonParse (P.jsonStringify payload) = some payload)
    (hobj : jsObjectLike payload = true) :
    decryptSessionPayload P key (encryptSessionPayload P key iv payload) = some payload :=
  decrypt_encrypt_helper P key iv _ _ payload rfl hivL hivB hctB htagL htagB hdec hutf
    hparse hobj

def c5Payload : Json := Json.obj [("ver", Json.num 1), ("sub", Json.str "demo")]

/-- Witness for C5 at a concrete payload and runtime. -/
theorem claim_C5_seal_open_roundtrip_witness :
    decryptSessionPayload (oracleRuntime c5Payload) [] (encryptSessionPayload
      (oracleRuntime c5Payload) [] ivZero c5Payload) = some c5Payload :=
  claim_C5_seal_open_roundtrip (oracleRuntime c5Payload) [] ivZero c5Payload
    rfl (by decide) (by decide) rfl (by decide) rfl rfl rfl rfl

/- ------------------------------------------------------------------
   Claim C6.
   ------------------------------------------------------------------ -/

/-- C6: decryptSessionPayload yields a payload only when the trimmed token
splits into exactly three '.'-separated segments, the decoded nonce is 12
bytes, the decoded tag is 16 bytes, authenticated decryption succeeds and
the plaintext parses as a (truthy JS) object; contrapositively, failing
any of those conditions yields null.  The embedded function is total, so
no input can throw past this boundary: every throwing branch of the
source sits inside its catch and is modelled as none. -/
theorem claim_C6_open_fails_closed (P : JsRuntime) (key : Bytes) (token : Str) (p : Json)
    (h : decryptSessionPayload P key token = some p) :
    (splitOnChar '.' (jsTrim token)).length = 3 ∧
    (fromBase64Url ((splitOnChar '.' (jsTrim token)).getD 0 [])).length = 12 ∧
    (fromBase64Url ((splitOnChar '.' (jsTrim token)).getD 2 [])).length = 16 ∧
    ∃ pt, P.aeadDec key (fromBase64Url ((splitOnChar '.' (jsTrim token)).getD 0 []))
        (fromBase64Url ((splitOnChar '.' (jsTrim token)).getD 1 []))
        (fromBase64Url ((splitOnChar '.' (jsTrim token)).getD 2 [])) = some pt ∧
      P.jsonParse (P.utf8Dec pt) = some p ∧ jsObjectLike p = true := by
  unfold decryptSessionPayload at h
  split at h
  · exact absurd h (by simp)
  · split at h
    · exact absurd h (by simp)
    · split at h
      · exact absurd h (by simp)
      · rename_i hne hlen hsz
        split at h
        · exact absurd h (by simp)
        · rename_i decrypted hdec
          split at h
          · exact absurd h (by simp)
          · rename_i q hparse
            split at h
            · rename_i hobj
              rcases Option.some.inj h with rfl
              refine ⟨by omega, ?_, ?_, decrypted, hdec, hparse, hobj⟩
              · rcases not_or.mp hsz with ⟨h12, _⟩
                omega
              · rcases not_or.mp hsz with ⟨_, h16⟩
                omega
            · exact absurd h (by simp)

def c6Payload : Json := Json.obj [("ok", Json.bool true)]

/-- Witness for C6: a successfully opened concrete token satisfies all the
listed conditions. -/
theorem claim_C6_open_fails_closed_witness :
    (splitOnChar '.' (jsTrim (encryptSessionPayload (oracleRuntime c6Payload) []
      ivZero c6Payload))).length = 3 :=
  (claim_C6_open_fails_closed (oracleRuntime c6Payload) []
    (encryptSessionPayload (oracleRuntime c6Payload) [] ivZero c6Payload) c6Payload
    (decrypt_encrypt_helper (oracleRuntime c6Payload) [] ivZero [] (List.replicate 16 0)
      c6Payload rfl rfl (by decide) (by decide) rfl (by decide) rfl rfl rfl rfl)).1

/- ------------------------------------------------------------------
   Claim C1.
   ------------------------------------------------------------------ -/

/-- C1: a request whose cookie carries a cryptographically valid (it
decrypts), non-expired, version-1 session token with a nonempty subject
resolves through the live Users table: with a matching enabled account the
Principal role is admin exactly when IsAdmin is set (the if-then-else on
row.isAdmin) and a disabled row yields no Principal; with no matching row
(account deleted) it also yields no Principal. -/
theorem claim_C1_session_resolution (P : JsRuntime) (key : Bytes) (users : List UserRow)
    (nowMs : Int) (cookieHeader : Str) (cookies : List (String × String)) (payload : Json)
    (uname : String) (e : Int)
    (hck : parseCookies cookieHeader = some cookies)
    (htokne : jsTrim (strChars ((cookieGet cookies sessionCookieName).getD "")) ≠ [])
    (hdec : decryptSessionPayload P key
        (jsTrim (strChars ((cookieGet cookies sessionCookieName).getD ""))) = some payload)
    (hver : jget payload "ver" = some (Json.num 1))
    (hsub : jsTrimStr (jsCoalesceString (jget payload "sub")) = uname)
    (hune : uname ≠ "")
    (hexp : jsToNumber (jget payload "exp") = some e)
    (hlive : nowMs < e) :
    (∀ row, users.find? (fun r => r.userName == uname) = some row →
       resolveSessionUser P key users nowMs cookieHeader =
         Except.ok (if row.enabled ≠ 0 then
           some { username := row.userName,
                  role := if row.isAdmin ≠ 0 then Role.admin else Role.user }
           else none)) ∧
    (users.find? (fun r => r.userName == uname) = none →
       resolveSessionUser P key users nowMs cookieHeader = Except.ok none) := by
  have hget : getSessionTokenFromRequest cookieHeader =
      some (jsTrim (strChars ((cookieGet cookies sessionCookieName).getD ""))) := by
    unfold getSessionTokenFromRequest
    rw [hck]
    rfl
  constructor
  · intro row hrow
    unfold resolveSessionUser
    rw [hget]
    simp only [if_neg htokne, hdec, Option.some_bind, hver, hsub, hexp, verMatches,
      Option.getD_some]
    split
    · rename_i hcontra
      exfalso
      rcases hcontra with h | h | h | h
      · exact absurd h (by decide)
      · exact hune h
      · exact Option.noConfusion h
      · omega
    · rw [hrow]
      by_cases he : row.enabled = 0
      · simp [he]
      · simp [he, buildSessionUser]
  · intro hfind
    unfold resolveSessionUser
    rw [hget]
    simp only [if_neg htokne, hdec, Option.some_bind, hver, hsub, hexp, verMatches,
      Option.getD_some]
    split
    · rfl
    · rw [hfind]

def c1Payload : Json := Json.obj
  [("ver", Json.num 1), ("sub", Json.str "admin"), ("iat", Json.num 0),
   ("exp", Json.num 28800000)]

def c1Runtime : JsRuntime := oracleRuntime c1Payload

def c1Token : Str := encryptSessionPayload c1Runtime [] ivZero c1Payload

def c1Cookie : Str := strChars "yokins_session=" ++ c1Token

def c1Users : List UserRow := [{ userName := "admin", enabled := 1, isAdmin := 1 }]

/-- Witness for C1: a concrete valid token for an enabled admin account
resolves to the admin Principal. -/
theorem claim_C1_session_resolution_witness :
    resolveSessionUser c1Runtime [] c1Users 0 c1Cookie =
      Except.ok (some { username := "admin", role := Role.admin }) := by
  have h := (claim_C1_session_resolution c1Runtime [] c1Users 0 c1Cookie
      [("yokins_session", String.mk c1Token)] c1Payload "admin" 28800000
      (by rfl) (by decide) (by rfl) (by rfl) (by rfl) (by decide) (by rfl) (by decide)).1
      { userName := "admin", enabled := 1, isAdmin := 1 } (by rfl)
  simpa using h

/- ------------------------------------------------------------------
   Claim C10.
   ------------------------------------------------------------------ -/

/-- C10: a token created at login embeds exp = issuance + 30 days
(2592000000 ms) when rememberMe and issuance + 8 hours (28800000 ms)
otherwise, and resolveSessionUser yields no Principal at any time at or
past that instant (the source rejects exp <= now), regardless of the
cookie having no max-age.  The runtime contract hypotheses mirror the
codec round trip. -/
theorem claim_C10_session_expiry (P : JsRuntime) (key iv : Bytes) (userName : String)
    (rememberMe : Bool) (nowMs : Int) (users : List UserRow) (t : Int)
    (cookieHeader : Str) (cookies : List (String × String)) (payload : Json)
    (hpay : payload = Json.obj
      [("ver", Json.num sessionTokenVersion), ("sub", Json.str userName),
       ("iat", Json.num nowMs),
       ("exp", Json.num (nowMs + (if rememberMe then rememberMeMaxAgeMs else sessionMaxAgeMs)))])
    (hivL : iv.length = 12) (hivB : ∀ x ∈ iv, x < 256)
    (hctB : ∀ x ∈ (P.aeadEnc key iv (P.utf8Enc (P.jsonStringify payload))).1, x < 256)
    (htagL : (P.aeadEnc key iv (P.utf8Enc (P.jsonStringify payload))).2.length = 16)
    (htagB : ∀ x ∈ (P.aeadEnc key iv (P.utf8Enc (P.jsonStringify payload))).2, x < 256)
    (hdec : P.aeadDec key iv (P.aeadEnc key iv (P.utf8Enc (P.jsonStringify payload))).1
        (P.aeadEnc key iv (P.utf8Enc (P.jsonStringify payload))).2 =
        some (P.utf8Enc (P.jsonStringify payload)))
    (hutf : P.utf8Dec (P.utf8Enc (P.jsonStringify payload)) = P.jsonStringify payload)
    (hparse : P.jsonParse (P.jsonStringify payload) = some payload)
    (hck : parseCookies cookieHeader = some cookies)
    (hcookie : jsTrim (strChars ((cookieGet cookies sessionCookieName).getD "")) =
        createSessionToken P key iv userName rememberMe nowMs)
    (hexpired : nowMs + (if rememberMe then rememberMeMaxAgeMs else sessionMaxAgeMs) ≤ t) :
    rememberMeMaxAgeMs = 2592000000 ∧ sessionMaxAgeMs = 28800000 ∧
    decryptSessionPayload P key (createSessionToken P key iv userName rememberMe nowMs) =
      some payload ∧
    jget payload "exp" = some (Json.num
      (nowMs + (if rememberMe then rememberMeMaxAgeMs else sessionMaxAgeMs))) ∧
    resolveSessionUser P key users t cookieHeader = Except.ok none := by
  have hdec3 : decryptSessionPayload P key
      (createSessionToken P key iv userName rememberMe nowMs) = some payload := by
    unfold createSessionToken
    rw [← hpay]
    exact decrypt_encrypt_helper P key iv _ _ payload rfl hivL hivB hctB htagL htagB hdec
      hutf hparse (by rw [hpay]; rfl)
  have hexp4 : jget payload "exp" = some (Json.num
      (nowMs + (if rememberMe then rememberMeMaxAgeMs else sessionMaxAgeMs))) := by
    rw [hpay]; rfl
  have hget : getSessionTokenFromRequest cookieHeader =
      some (jsTrim (strChars ((cookieGet cookies sessionCookieName).getD ""))) := by
    unfold getSessionTokenFromRequest
    rw [hck]
    rfl
  have hne : createSessionToken P key iv userName rememberMe nowMs ≠ [] := by
    unfold createSessionToken encryptSessionPayload
    simp
  refine ⟨rfl, rfl, hdec3, hexp4, ?_⟩
  unfold resolveSessionUser
  rw [hget, hcookie]
  have hlast : (jsToNumber ((decryptSessionPayload P key
      (createSessionToken P key iv userName rememberMe nowMs)).bind
      (fun p => jget p "exp"))).getD 0 ≤ t := by
    rw [hdec3]
    simp only [Option.some_bind, hexp4, jsToNumber, Option.getD_some]
    exact hexpired
  simp only [if_neg hne, if_pos (Or.inr (Or.inr (Or.inr hlast)))]

def c10Payload : Json := Json.obj
  [("ver", Json.num sessionTokenVersion), ("sub", Json.str "u"), ("iat", Json.num 0),
   ("exp", Json.num (0 + (if false then rememberMeMaxAgeMs else sessionMaxAgeMs)))]

def c10Runtime : JsRuntime := oracleRuntime c10Payload

def c10Cookie : Str :=
  strChars "yokins_session=" ++ createSessionToken c10Runtime [] ivZero "u" false 0

/-- Witness for C10: a non-remembered session issued at time 0 no longer
resolves at time 28800000 (eight hours later). -/
theorem claim_C10_session_expiry_witness :
    resolveSessionUser c10Runtime [] [] 28800000 c10Cookie = Except.ok none :=
  (claim_C10_session_expiry c10Runtime [] ivZero "u" false 0 [] 28800000 c10Cookie
    [("yokins_session", String.mk (createSessionToken c10Runtime [] ivZero "u" false 0))]
    c10Payload rfl rfl (by decide) (by decide) rfl (by decide) rfl rfl rfl (by rfl)
    (by rfl) (by decide)).2.2.2.2

/- ------------------------------------------------------------------
   Claim C2.
   ------------------------------------------------------------------ -/

/-- C2: with a bearer API key whose hash matches a row, a disabled row or
one whose trimmed expiresAt compares at or before the current ISO time
yields no Principal; and any resolved Principal is apikey:keyName with
role user (ApiKeys rows carry no admin flag at all). -/
theorem claim_C2_apikey_resolution (P : JsRuntime) (apiKeys : List ApiKeyRow)
    (nowIso : String) (authorizationHeader : String) (apiKey : String) (row : ApiKeyRow)
    (hmatch : bearerToken (jsTrimStr authorizationHeader) = some apiKey)
    (hne : apiKey ≠ "")
    (hrow : apiKeys.find? (fun r => r.keyHash == hashApiKey P apiKey) = some row) :
    ((row.enabled = 0 ∨ (jsTrimStr (row.expiresAt.getD "") ≠ "" ∧
        jsTrimStr (row.expiresAt.getD "") ≤ nowIso)) →
      resolveApiKeyUser P apiKeys nowIso authorizationHeader = none) ∧
    (∀ p, resolveApiKeyUser P apiKeys nowIso authorizationHeader = some p →
      p.username = "apikey:" ++ row.keyName ∧ p.role = Role.user) := by
  unfold resolveApiKeyUser
  rw [hmatch]
  simp only [if_neg hne, hrow]
  constructor
  · intro hbad
    by_cases he : row.enabled = 0
    · simp [he]
    · rcases hbad with h | h
      · exact absurd h he
      · rw [if_neg he, if_pos h]
  · intro p hp
    by_cases he : row.enabled = 0
    · rw [if_pos he] at hp
      cases hp
    · rw [if_neg he] at hp
      by_cases hex : (jsTrimStr (row.expiresAt.getD "") ≠ "" ∧
          jsTrimStr (row.expiresAt.getD "") ≤ nowIso)
      · rw [if_pos hex] at hp
        cases hp
      · rw [if_neg hex] at hp
        have := Option.some.inj hp
        subst this
        exact ⟨rfl, rfl⟩

def c2Runtime : JsRuntime := oracleRuntime Json.null

def c2RowDisabled : ApiKeyRow :=
  { apiKeyId := "k-1", keyName := "monitor", keyHash := "apikey:k1",
    createdAt := "2026-01-01T00:00:00", expiresAt := none, enabled := 0 }

/-- Witness for C2: a disabled row whose hash matches never resolves. -/
theorem claim_C2_apikey_resolution_witness :
    resolveApiKeyUser c2Runtime [c2RowDisabled] "2026-02-01T00:00:00" "Bearer k1" = none :=
  (claim_C2_apikey_resolution c2Runtime [c2RowDisabled] "2026-02-01T00:00:00" "Bearer k1"
    "k1" c2RowDisabled (by rfl) (by decide) (by rfl)).1 (Or.inl rfl)

/- ------------------------------------------------------------------
   Claim C7 (corrected).
   ------------------------------------------------------------------ -/

def c7Runtime : JsRuntime := oracleRuntime Json.null

/-- Counterexample to C7 as stated: the cookie header a=% has a malformed
percent-escape, decodeURIComponent throws inside parseCookies outside any
catch, and credential resolution does not complete — the middleware
propagates the exception (the generic 500 handler answers), not the
uniform unauthenticated outcome. -/
theorem claim_C7_counterexample :
    resolveAuthUser c7Runtime [] [] [] 0 "" (strChars "a=%") "" = Except.error () := by
  rfl

/-- C7 as amended: for every request whose cookie header percent-decodes
(parseCookies succeeds), credential resolution completes without throwing
for any credentials, and an unauthenticated result is observed only
through the one constant 401 rejection of requireAuth, which carries no
detail about which check failed. -/
theorem claim_C7_uniform_unauthenticated (P : JsRuntime) (key : Bytes)
    (users : List UserRow) (apiKeys : List ApiKeyRow) (nowMs : Int) (nowIso : String)
    (cookieHeader : Str) (authHeader : String) (cookies : List (String × String))
    (hck : parseCookies cookieHeader = some cookies) :
    (∃ r, resolveAuthUser P key users apiKeys nowMs nowIso cookieHeader authHeader =
       Except.ok r) ∧
    requireAuth none = some resp401 := by
  have hsess : ∃ s, resolveSessionUser P key users nowMs cookieHeader = Except.ok s := by
    unfold resolveSessionUser getSessionTokenFromRequest
    rw [hck]
    simp only [Option.map_some']
    split
    · exact ⟨none, rfl⟩
    · split
      · exact ⟨none, rfl⟩
      · split
        · exact ⟨none, rfl⟩
        · split
          · exact ⟨none, rfl⟩
          · exact ⟨_, rfl⟩
  rcases hsess with ⟨s, hs⟩
  refine ⟨?_, rfl⟩
  unfold resolveAuthUser
  rw [hs]
  cases s with
  | none => exact ⟨_, rfl⟩
  | some u => exact ⟨some u, rfl⟩

/-- Witness for the amended C7 at a well-formed cookie header. -/
theorem claim_C7_uniform_unauthenticated_witness :
    ∃ r, resolveAuthUser c7Runtime [] [] [] 0 "" (strChars "a=b") "" = Except.ok r :=
  (claim_C7_uniform_unauthenticated c7Runtime [] [] [] 0 "" (strChars "a=b") ""
    [("a", "b")] (by rfl)).1

/- ------------------------------------------------------------------
   Claim C8 (corrected).
   ------------------------------------------------------------------ -/

def c8Machine : MachineInfo :=
  { hostname := "h", osPlatform := "linux", osRelease := "1", arch := "x64", cpuCount := 1,
    rawMacs := ["aa:bb:cc:dd:ee:ff", "aa:bb:cc:dd:ee:ff"], interfacesThrow := false }

/-- Counterexample to C8 as stated: resolveServerFingerprint keeps
duplicate mac addresses (one physical mac appears once per address entry
of os.networkInterfaces()), so on a machine listing the same mac twice
the fingerprint differs from the de-duplicated one the claim describes,
and the derived key differs from a key derived over the de-duplicated
fingerprint (hash functions instantiated injectively). -/
theorem claim_C8_counterexample :
    resolveServerFingerprint c8Machine ≠ fingerprintSpecDeduped c8Machine ∧
    getSessionSecretKey (fun s => s.toList.map Char.toNat) id none none c8Machine [] ≠
      (fun s => s.toList.map Char.toNat)
        ("server-fingerprint:" ++ fingerprintSpecDeduped c8Machine) := by
  constructor
  · decide
  · decide

/-- C8 as amended: exactly one key derivation chain — a nonempty trimmed
configured secret hashes that secret (so the key is independent of the
machine and of the random draw: any two processes with the same secret
agree); otherwise a nonempty fingerprint (duplicates retained) hashes the
domain-tagged fingerprint; otherwise the key hashes the fresh random
bytes. -/
theorem claim_C8_key_derivation (utf8Enc : String → Bytes) (sha256 : Bytes → Bytes)
    (envA envB : Option String) (m m2 : MachineInfo) (rand rand2 : Bytes) :
    (jsTrimStr (envA.getD (envB.getD "")) ≠ "" →
       getSessionSecretKey utf8Enc sha256 envA envB m rand =
         sha256 (utf8Enc (jsTrimStr (envA.getD (envB.getD "")))) ∧
       getSessionSecretKey utf8Enc sha256 envA envB m rand =
         getSessionSecretKey utf8Enc sha256 envA envB m2 rand2) ∧
    (jsTrimStr (envA.getD (envB.getD "")) = "" → resolveServerFingerprint m ≠ "" →
       getSessionSecretKey utf8Enc sha256 envA envB m rand =
         sha256 (utf8Enc ("server-fingerprint:" ++ resolveServerFingerprint m))) ∧
    (jsTrimStr (envA.getD (envB.getD "")) = "" → resolveServerFingerprint m = "" →
       getSessionSecretKey utf8Enc sha256 envA envB m rand = sha256 rand) := by
  refine ⟨fun hcfg => ⟨?_, ?_⟩, fun hcfg hfp => ?_, fun hcfg hfp => ?_⟩
  · unfold getSessionSecretKey
    rw [if_pos hcfg]
  · unfold getSessionSecretKey
    rw [if_pos hcfg, if_pos hcfg]
  · unfold getSessionSecretKey
    rw [if_neg (by simpa using hcfg), if_pos hfp]
  · unfold getSessionSecretKey
    rw [if_neg (by simpa using hcfg), if_neg (by simpa using hfp)]

/-- Witness for the amended C8: a configured secret wins the chain. -/
theorem claim_C8_key_derivation_witness :
    getSessionSecretKey (fun s => s.toList.map Char.toNat) id (some "s") none c8Machine [] =
      id ((fun s => s.toList.map Char.toNat) "s") :=
  (((claim_C8_key_derivation (fun s => s.toList.map Char.toNat) id (some "s") none
    c8Machine c8Machine [] []).1) (by decide)).1

/- ------------------------------------------------------------------
   Claim C9.
   ------------------------------------------------------------------ -/

theorem adminMount_not_public (relPath : String) (h : isAdminMount relPath = true) :
    publicApiPaths.contains relPath = false := by
  by_contra hc
  have hmem : relPath ∈ publicApiPaths := by
    have := Bool.not_eq_false (publicApiPaths.contains relPath) |>.mp hc
    simpa using this
  simp only [publicApiPaths, List.mem_cons, List.not_mem_nil, or_false] at hmem
  rcases hmem with rfl | rfl | rfl | rfl | rfl <;> exact absurd h (by decide)

/-- C9: on every /api route outside the fixed public allowlist an
unresolved Principal is rejected 401 by the mounted middleware before any
role check or handler body (the pipeline short-circuits); on the
/api/admin mount a resolved non-admin Principal is rejected 403, and an
unresolved one still gets the 401 first; the inline gate of the doc-class
PATCH route behaves identically. -/
theorem claim_C9_authorization_gates :
    (∀ relPath : String, publicApiPaths.contains relPath = false →
       apiPipeline relPath none = some resp401) ∧
    (∀ (relPath : String) (p : Principal), isAdminMount relPath = true →
       p.role ≠ Role.admin → apiPipeline relPath (some p) = some resp403) ∧
    (∀ relPath : String, isAdminMount relPath = true →
       apiPipeline relPath none = some resp401) ∧
    docClassPatchGate none = some resp401 ∧
    (∀ p : Principal, p.role ≠ Role.admin → docClassPatchGate (some p) = some resp403) := by
  refine ⟨?_, ?_, ?_, rfl, ?_⟩
  · intro relPath h
    have hmem : relPath ∉ publicApiPaths := by simpa using h
    simp [apiPipeline, apiGateMiddleware, requireAuth, hmem]
  · intro relPath p hadm hrole
    have hmem : relPath ∉ publicApiPaths := by
      simpa using adminMount_not_public relPath hadm
    simp [apiPipeline, apiGateMiddleware, requireAuth, hmem, hadm, requireAdmin, hrole]
  · intro relPath hadm
    have hmem : relPath ∉ publicApiPaths := by
      simpa using adminMount_not_public relPath hadm
    simp [apiPipeline, apiGateMiddleware, requireAuth, hmem]
  · intro p hrole
    simp [docClassPatchGate, hrole]

/-- Witness for C9 on a concrete protected route and a concrete
admin-mounted route with a non-admin Principal. -/
theorem claim_C9_authorization_gates_witness :
    apiPipeline "/documents" none = some resp401 ∧
    apiPipeline "/admin/users" (some { username := "u", role := Role.user }) = some resp403 :=
  ⟨claim_C9_authorization_gates.1 "/documents" (by decide),
   claim_C9_authorization_gates.2.1 "/admin/users" { username := "u", role := Role.user }
     (by decide) (by decide)⟩

/- ------------------------------------------------------------------
   Claim C3 (corrected).
   ------------------------------------------------------------------ -/

def c3Runtime : JsRuntime := oracleRuntime Json.null

def c3State : BusState := { clients := [{ sid := 1, writeOk := true }], seq := 5 }

def c3Req : TriggerRequest :=
  { monitorHeaderToken := none, xForwardedFor := none, remoteAddress := some "127.0.0.1",
    bodyDocumentId := none, bodyReason := none }

/-- Counterexample to C3 as stated: with a shared secret configured, a
loopback request carrying no secret header is rejected 401 with no event
and no sequence advance, although the claim says a loopback origin alone
suffices for acceptance. -/
theorem claim_C3_counterexample :
    isLoopbackRequest c3Req = true ∧
    (documentsInsertedHandler c3Runtime "secret" "t0" c3Req c3State).1 = 401 ∧
    (documentsInsertedHandler c3Runtime "secret" "t0" c3Req c3State).2.1 = c3State ∧
    (documentsInsertedHandler c3Runtime "secret" "t0" c3Req c3State).2.2 = [] := by
  refine ⟨by decide, rfl, rfl, rfl⟩

/-- C3 as amended: the trigger request is accepted (status 200, the
broadcast call runs) exactly when either a shared secret is configured and
the trimmed header equals it — loopback is then irrelevant — or no secret
is configured and the caller is loopback; a rejected request leaves the
state untouched and writes nothing to any subscriber. -/
theorem claim_C3_trigger_gate (P : JsRuntime) (monitorEventToken nowIso : String)
    (req : TriggerRequest) (st : BusState) :
    ((documentsInsertedHandler P monitorEventToken nowIso req st).1 = 200 ↔
      ((monitorEventToken ≠ "" ∧
         jsTrimStr (req.monitorHeaderToken.getD "") = monitorEventToken) ∨
       (monitorEventToken = "" ∧ isLoopbackRequest req = true))) ∧
    ((documentsInsertedHandler P monitorEventToken nowIso req st).1 = 200 →
      (documentsInsertedHandler P monitorEventToken nowIso req st).2.1 =
        (broadcastDocumentsChanged P nowIso st (triggerPayload req)).1 ∧
      (documentsInsertedHandler P monitorEventToken nowIso req st).2.2 =
        (broadcastDocumentsChanged P nowIso st (triggerPayload req)).2) ∧
    ((documentsInsertedHandler P monitorEventToken nowIso req st).1 ≠ 200 →
      (documentsInsertedHandler P monitorEventToken nowIso req st).2.1 = st ∧
      (documentsInsertedHandler P monitorEventToken nowIso req st).2.2 = []) := by
  by_cases hmt : monitorEventToken = ""
  · subst hmt
    by_cases hlb : isLoopbackRequest req = true
    · have h200 : documentsInsertedHandler P "" nowIso req st =
          (200, (broadcastDocumentsChanged P nowIso st (triggerPayload req)).1,
           (broadcastDocumentsChanged P nowIso st (triggerPayload req)).2) := by
        unfold documentsInsertedHandler
        rw [if_neg (by simp), if_neg (by simp [hlb])]
      rw [h200]
      refine ⟨⟨fun _ => Or.inr ⟨rfl, hlb⟩, fun _ => rfl⟩, fun _ => ⟨rfl, rfl⟩, fun hne => ?_⟩
      exact absurd rfl hne
    · have h403 : documentsInsertedHandler P "" nowIso req st = (403, st, []) := by
        unfold documentsInsertedHandler
        rw [if_neg (by simp), if_pos ⟨rfl, by simpa using hlb⟩]
      rw [h403]
      refine ⟨⟨fun hc => by simp at hc, fun hc => ?_⟩, fun hc => by simp at hc,
        fun _ => ⟨rfl, rfl⟩⟩
      rcases hc with ⟨hne, _⟩ | ⟨_, hl⟩
      · exact absurd rfl hne
      · exact absurd hl hlb
  · by_cases htok : jsTrimStr (req.monitorHeaderToken.getD "") = monitorEventToken
    · have h200 : documentsInsertedHandler P monitorEventToken nowIso req st =
          (200, (broadcastDocumentsChanged P nowIso st (triggerPayload req)).1,
           (broadcastDocumentsChanged P nowIso st (triggerPayload req)).2) := by
        unfold documentsInsertedHandler
        rw [if_neg (by
          rintro ⟨-, hbad | hbad⟩
          · rw [htok] at hbad
            exact hmt hbad
          · exact hbad htok)]
        rw [if_neg (by rintro ⟨h0, -⟩; exact hmt h0)]
      rw [h200]
      refine ⟨⟨fun _ => Or.inl ⟨hmt, htok⟩, fun _ => rfl⟩, fun _ => ⟨rfl, rfl⟩, fun hne => ?_⟩
      exact absurd rfl hne
    · have h401 : documentsInsertedHandler P monitorEventToken nowIso req st =
          (401, st, []) := by
        unfold documentsInsertedHandler
        rw [if_pos ⟨hmt, Or.inr htok⟩]
      rw [h401]
      refine ⟨⟨fun hc => by simp at hc, fun hc => ?_⟩, fun hc => by simp at hc,
        fun _ => ⟨rfl, rfl⟩⟩
      rcases hc with ⟨_, ht⟩ | ⟨h0, _⟩
      · exact absurd ht htok
      · exact absurd h0 hmt

def c3ReqLoop : TriggerRequest :=
  { monitorHeaderToken := none, xForwardedFor := some "127.0.0.1", remoteAddress := none,
    bodyDocumentId := none, bodyReason := none }

/-- Witness for the amended C3: with no secret configured, a loopback
caller is accepted. -/
theorem claim_C3_trigger_gate_witness :
    (documentsInsertedHandler c3Runtime "" "t0" c3ReqLoop c3State).1 = 200 :=
  (claim_C3_trigger_gate c3Runtime "" "t0" c3ReqLoop c3State).1.mpr
    (Or.inr ⟨rfl, by decide⟩)

/- ------------------------------------------------------------------
   Claim C4 (corrected).
   ------------------------------------------------------------------ -/

theorem deliverAll_eq (eid : Nat) (body : String) (l : List Subscriber) :
    deliverAll eid body l =
      (l.filter (fun c => c.writeOk),
       (l.filter (fun c => c.writeOk)).map
         (fun c => ({ sid := c.sid, eventId := eid, body := body } : Delivery))) := by
  induction l with
  | nil => rfl
  | cons c rest ih =>
    by_cases hc : c.writeOk <;> simp [deliverAll, hc, ih]

theorem broadcast_step (P : JsRuntime) (nowIso : String) (st : BusState)
    (payload : List (String × Json)) (h : st.clients ≠ []) :
    broadcastDocumentsChanged P nowIso st payload =
      ({ clients := st.clients.filter (fun c => c.writeOk), seq := st.seq + 1 },
       (st.clients.filter (fun c => c.writeOk)).map
         (fun c => ({ sid := c.sid, eventId := st.seq + 1,
                      body := (toSseData P st.seq "documents_changed"
                        (broadcastPayloadJson nowIso payload)).2 } : Delivery))) := by
  unfold broadcastDocumentsChanged
  rw [if_neg h, deliverAll_eq]
  rfl

theorem broadcast_empty (P : JsRuntime) (nowIso : String) (st : BusState)
    (payload : List (String × Json)) (h : st.clients = []) :
    broadcastDocumentsChanged P nowIso st payload = (st, []) := by
  unfold broadcastDocumentsChanged
  rw [if_pos h]

theorem filter_map_sid_nil (eid : Nat) (body : String) (l : List Subscriber) (sid0 : Nat)
    (h : ∀ c ∈ l, c.sid ≠ sid0) :
    ((l.filter (fun c => c.writeOk)).map
      (fun c => ({ sid := c.sid, eventId := eid, body := body } : Delivery))).filter
      (fun d => d.sid == sid0) = [] := by
  induction l with
  | nil => rfl
  | cons c rest ih =>
    have hc : c.sid ≠ sid0 := h c (List.mem_cons_self c rest)
    have ih' := ih (fun x hx => h x (List.mem_cons_of_mem c hx))
    by_cases hw : c.writeOk
    · rw [List.filter_cons_of_pos (by simpa using hw), List.map_cons,
        List.filter_cons_of_neg (by simp [hc]), ih']
    · rw [List.filter_cons_of_neg (by simpa using hw), ih']

theorem filter_map_sid_single (eid : Nat) (body : String) (l : List Subscriber)
    (s : Subscriber) (hmem : s ∈ l) (hok : s.writeOk = true)
    (hnodup : (l.map (fun c => c.sid)).Nodup) :
    ((l.filter (fun c => c.writeOk)).map
      (fun c => ({ sid := c.sid, eventId := eid, body := body } : Delivery))).filter
      (fun d => d.sid == s.sid) =
      [{ sid := s.sid, eventId := eid, body := body }] := by
  induction l with
  | nil => cases hmem
  | cons c rest ih =>
    have hnd := List.nodup_cons.mp hnodup
    rcases List.mem_cons.mp hmem with rfl | hmem'
    · have hrest : ∀ x ∈ rest, x.sid ≠ s.sid := by
        intro x hx heq
        have h1 : x.sid ∈ List.map (fun c => c.sid) rest := by
          simpa using List.mem_map_of_mem (fun c => c.sid) hx
        rw [heq] at h1
        exact hnd.1 (by simpa using h1)
      rw [List.filter_cons_of_pos (by simpa using hok), List.map_cons,
        List.filter_cons_of_pos (by simp), filter_map_sid_nil eid body rest s.sid hrest]
    · have hcs : c.sid ≠ s.sid := by
        intro heq
        have h1 : s.sid ∈ List.map (fun c => c.sid) rest := by
          simpa using List.mem_map_of_mem (fun c => c.sid) hmem'
        rw [← heq] at h1
        exact hnd.1 (by simpa using h1)
      have ih' := ih hmem' hnd.2
      by_cases hw : c.writeOk
      · rw [List.filter_cons_of_pos (by simpa using hw), List.map_cons,
          List.filter_cons_of_neg (by simp [hcs]), ih']
      · rw [List.filter_cons_of_neg (by simpa using hw), ih']

theorem runPublishes_received (P : JsRuntime) (nowIso : String)
    (ps : List (List (String × Json))) : ∀ (st : BusState) (s : Subscriber),
    s ∈ st.clients → s.writeOk = true → (st.clients.map (fun c => c.sid)).Nodup →
    ((runPublishes P nowIso st ps).2.filter (fun d => d.sid == s.sid)).map
        (fun d => d.eventId) = List.range' (st.seq + 1) ps.length ∧
    s ∈ (runPublishes P nowIso st ps).1.clients := by
  induction ps with
  | nil =>
    intro st s hmem hok hnd
    exact ⟨by simp [runPublishes, List.range'], hmem⟩
  | cons p ps ih =>
    intro st s hmem hok hnd
    have hne : st.clients ≠ [] := by
      intro h0
      rw [h0] at hmem
      cases hmem
    have hb := broadcast_step P nowIso st p hne
    have hmem1 : s ∈ st.clients.filter (fun c => c.writeOk) :=
      List.mem_filter.mpr ⟨hmem, hok⟩
    have hnd1 : ((st.clients.filter (fun c => c.writeOk)).map (fun c => c.sid)).Nodup := by
      apply List.Nodup.sublist _ hnd
      exact List.Sublist.map _ (List.filter_sublist _)
    have ihp := ih { clients := st.clients.filter (fun c => c.writeOk), seq := st.seq + 1 }
      s hmem1 hok hnd1
    have hd1 := filter_map_sid_single (st.seq + 1)
      (toSseData P st.seq "documents_changed" (broadcastPayloadJson nowIso p)).2
      st.clients s hmem hok hnd
    constructor
    · have hsplit : (runPublishes P nowIso st (p :: ps)).2 =
          (broadcastDocumentsChanged P nowIso st p).2 ++
            (runPublishes P nowIso (broadcastDocumentsChanged P nowIso st p).1 ps).2 := rfl
      rw [hsplit, hb]
      dsimp only
      rw [List.filter_append, List.map_append, hd1, ihp.1]
      rfl
    · have hsplit1 : (runPublishes P nowIso st (p :: ps)).1 =
          (runPublishes P nowIso (broadcastDocumentsChanged P nowIso st p).1 ps).1 := rfl
      rw [hsplit1, hb]
      dsimp only
      exact ihp.2

def c4Runtime : JsRuntime := oracleRuntime Json.null

/-- Counterexample to C4 as stated: a publish with zero registered
subscribers returns early — the sequence counter does not advance (stays
at 5) and no event is produced, while the claim says every publish
increments the counter by exactly one. -/
theorem claim_C4_counterexample :
    (broadcastDocumentsChanged c4Runtime "t0" { clients := [], seq := 5 } []).1.seq = 5 ∧
    (broadcastDocumentsChanged c4Runtime "t0" { clients := [], seq := 5 } []).2 = [] :=
  ⟨rfl, rfl⟩

/-- C4 as amended: a publish with at least one registered subscriber
increments the sequence by exactly one and writes the one event stamped
with the new value to every subscriber whose write succeeds, removing
exactly the failing subscribers (the registry becomes the writeOk filter,
so one failure never blocks the others); a publish with no subscribers
leaves the state unchanged; and over any sequence of publishes a
continuously registered subscriber with distinct id whose writes succeed
receives exactly one event per publish with consecutive, strictly
increasing ids. -/
theorem claim_C4_publish_fanout :
    (∀ (P : JsRuntime) (nowIso : String) (st : BusState) (payload : List (String × Json)),
       st.clients ≠ [] →
         (broadcastDocumentsChanged P nowIso st payload).1.seq = st.seq + 1 ∧
         (broadcastDocumentsChanged P nowIso st payload).1.clients =
           st.clients.filter (fun c => c.writeOk) ∧
         (broadcastDocumentsChanged P nowIso st payload).2 =
           (st.clients.filter (fun c => c.writeOk)).map
             (fun c => ({ sid := c.sid, eventId := st.seq + 1,
                          body := (toSseData P st.seq "documents_changed"
                            (broadcastPayloadJson nowIso payload)).2 } : Delivery))) ∧
    (∀ (P : JsRuntime) (nowIso : String) (st : BusState) (payload : List (String × Json)),
       st.clients = [] → broadcastDocumentsChanged P nowIso st payload = (st, [])) ∧
    (∀ (P : JsRuntime) (nowIso : String) (st : BusState)
       (ps : List (List (String × Json))) (s : Subscriber),
       s ∈ st.clients → s.writeOk = true → (st.clients.map (fun c => c.sid)).Nodup →
       ((runPublishes P nowIso st ps).2.filter (fun d => d.sid == s.sid)).map
           (fun d => d.eventId) = List.range' (st.seq + 1) ps.length ∧
       s ∈ (runPublishes P nowIso st ps).1.clients) := by
  refine ⟨?_, ?_, ?_⟩
  · intro P nowIso st payload h
    rw [broadcast_step P nowIso st payload h]
    exact ⟨rfl, rfl, rfl⟩
  · intro P nowIso st payload h
    exact broadcast_empty P nowIso st payload h
  · intro P nowIso st ps s hmem hok hnd
    exact runPublishes_received P nowIso ps st s hmem hok hnd

/-- Witness for the amended C4: three subscribers of which one fails;
the sequence advances by one, the failing subscriber is removed, both
healthy subscribers receive the event. -/
theorem claim_C4_publish_fanout_witness :
    (broadcastDocumentsChanged c4Runtime "t0"
      { clients := [{ sid := 1, writeOk := true }, { sid := 2, writeOk := false },
                    { sid := 3, writeOk := true }], seq := 0 } []).1.seq = 0 + 1 ∧
    (broadcastDocumentsChanged c4Runtime "t0"
      { clients := [{ sid := 1, writeOk := true }, { sid := 2, writeOk := false },
                    { sid := 3, writeOk := true }], seq := 0 } []).1.clients =
      [{ sid := 1, writeOk := true }, { sid := 3, writeOk := true }] := by
  have h := claim_C4_publish_fanout.1 c4Runtime "t0"
    { clients := [{ sid := 1, writeOk := true }, { sid := 2, writeOk := false },
                  { sid := 3, writeOk := true }], seq := 0 } [] (by decide)
  exact ⟨h.1, by rw [h.2.1]; rfl⟩
